import Mathlib

/-!
Verification of the quantflow stochastic-process library.

This file gives a shallow embedding, in Lean 4, of the numerical core of
the quantflow repository: the Poisson family of counting processes
(quantflow/sp/poisson.py), the Wiener diffusion process
(quantflow/sp/weiner.py), the marginal-distribution abstraction
(quantflow/utils/marginal.py) and the Paths container
(quantflow/utils/paths.py).  Pure numerical code is translated into Lean
functions over the real and complex numbers; the pseudo-random source used
by the sampling routines is injected explicitly as a list of pre-drawn
values, following the design note of the specification that the RNG be
treated as an external collaborator.  Methods that raise
NotImplementedError are embedded as functions into an Except type that
always return an error value.
-/

noncomputable section

namespace Quantflow

/-- Complex unit as used by the source (Im = 1j in quantflow/sp/base.py,
imported by poisson.py). -/
def Im : ℂ := Complex.I

/-! ### Poisson process: characteristic function and closed-form pmf and cdf
(quantflow/sp/poisson.py). -/

namespace PoissonProcess

/-- Embedding of PoissonProcess.characteristic_exponent (poisson.py lines
75 to 76): rate * (exp(Im * u) - 1). -/
def characteristic_exponent (rate : ℝ) (u : ℂ) : ℂ :=
  rate * (Complex.exp (Im * u) - 1)

/-- Embedding of PoissonProcess.characteristic (poisson.py lines 78 to 79):
exp(t * characteristic_exponent(u)). -/
def characteristic (rate t : ℝ) (u : ℂ) : ℂ :=
  Complex.exp (t * characteristic_exponent rate u)

end PoissonProcess

namespace WeinerProcess

/-- Embedding of WeinerProcess.characteristic (weiner.py lines 18 to 20):
su = sigma * u; exp(-0.5 * su * su * t). -/
def characteristic (sigma t : ℝ) (u : ℂ) : ℂ :=
  let su := (sigma : ℂ) * u
  Complex.exp (-0.5 * su * su * t)

end WeinerProcess

/-- Model of scipy.stats.poisson.pmf (and of the equivalent raw
poisson._pmf used by DoubleIndependentPoisson) at integer count n and mean
mu: mu to the power n times exp(-mu) over n factorial for n >= 0, and 0
for negative n, as documented in the docstring of PoissonProcess.pdf
(poisson.py lines 32 to 42). -/
def scipy_poisson_pmf (n : ℤ) (mu : ℝ) : ℝ :=
  if n < 0 then 0 else mu ^ n.toNat * Real.exp (-mu) / (Nat.factorial n.toNat)

/-- Model of scipy.stats.poisson.cdf (and of the equivalent raw
poisson._cdf) at integer count n and mean mu: the sum of the pmf over
counts 0 to n for n >= 0, and 0 for negative n, as documented in the
docstring of PoissonProcess.cdf (poisson.py lines 44 to 58). -/
def scipy_poisson_cdf (n : ℤ) (mu : ℝ) : ℝ :=
  if n < 0 then 0 else
    ∑ k ∈ Finset.range (n.toNat + 1), mu ^ k * Real.exp (-mu) / (Nat.factorial k)

namespace PoissonProcess

/-- Embedding of PoissonProcess.pdf (poisson.py lines 32 to 42):
poisson.pmf(n, t * rate). -/
def pdf (rate t : ℝ) (n : ℤ) : ℝ := scipy_poisson_pmf n (t * rate)

/-- Embedding of PoissonProcess.cdf (poisson.py lines 44 to 58):
poisson.cdf(n, t * rate). -/
def cdf (rate t : ℝ) (n : ℤ) : ℝ := scipy_poisson_cdf n (t * rate)

end PoissonProcess

namespace DoubleIndependentPoisson

/-- Embedding of DoubleIndependentPoisson.pdf (poisson.py lines 181 to
188): the product of the two marginal poisson pmfs at means t * rate_left
and t * rate_right. -/
def pdf (rate_left rate_right t : ℝ) (n : ℤ × ℤ) : ℝ :=
  scipy_poisson_pmf n.1 (t * rate_left) * scipy_poisson_pmf n.2 (t * rate_right)

/-- Embedding of DoubleIndependentPoisson.cdf (poisson.py lines 190 to
197): the product of the two marginal poisson cdfs at means t * rate_left
and t * rate_right. -/
def cdf (rate_left rate_right t : ℝ) (n : ℤ × ℤ) : ℝ :=
  scipy_poisson_cdf n.1 (t * rate_left) * scipy_poisson_cdf n.2 (t * rate_right)

end DoubleIndependentPoisson

/-! ### Marginal distribution abstraction (quantflow/utils/marginal.py). -/

/-- Marginal distribution, the abstraction of the Marginal1D class of
marginal.py: its single abstract piece of data is the characteristic
function, a complex-valued function of a (possibly complex) frequency. -/
structure Marginal1D where
  characteristic : ℂ → ℂ

/-- Result of the transform engine: a spatial grid x together with real
values y (the TransformResult of quantflow/utils/transforms.py as used by
marginal.py). -/
structure TransformResult where
  x : List ℝ
  y : List ℝ

/-- Modelled from the spec: the Transform class of
quantflow/utils/transforms.py is not under src.  Per specification section
4.1 a transform owns a frequency grid (the frequency_domain attribute)
and, when applied to complex characteristic values together with an
optional explicit spatial spacing delta_x, produces a TransformResult of
spatial coordinates and real values.  The inversion itself is kept
abstract: an engine is any pair of a frequency grid and an inversion
map. -/
structure TransformEngine where
  frequency_domain : List ℝ
  invert : List ℂ → Option ℝ → TransformResult

namespace Marginal1D

/-- Embedding of Marginal1D.mean_from_characteristic (marginal.py lines 47
to 51): with d = 0.001, the real part of
-0.5 * 1j * (characteristic(d) - characteristic(-d)) / d. -/
def mean_from_characteristic (m : Marginal1D) : ℝ :=
  let d : ℝ := 0.001
  (-0.5 * Complex.I * (m.characteristic (Complex.ofReal d)
      - m.characteristic (-(Complex.ofReal d))) / (Complex.ofReal d)).re

/-- Embedding of Marginal1D.variance_from_characteristic (marginal.py
lines 53 to 61): with d = 0.001, c1 = characteristic(d),
c0 = characteristic(0), c2 = characteristic(-d) and
mval = -0.5 * 1j * (c1 - c2) / d, the real part of
-(c1 - 2 * c0 + c2) / (d * d) - mval * mval. -/
def variance_from_characteristic (m : Marginal1D) : ℝ :=
  let d : ℝ := 0.001
  let c1 := m.characteristic (Complex.ofReal d)
  let c0 := m.characteristic 0
  let c2 := m.characteristic (-(Complex.ofReal d))
  let mval := -0.5 * Complex.I * (c1 - c2) / (Complex.ofReal d)
  (-(c1 - 2 * c0 + c2) / (Complex.ofReal d * Complex.ofReal d) - mval * mval).re

/-- Embedding of Marginal1D.characteristic_corrected (marginal.py lines
127 to 129): convexity = log(characteristic(-1j));
characteristic(u) * exp(-1j * u * convexity). -/
def characteristic_corrected (m : Marginal1D) (u : ℂ) : ℂ :=
  let convexity := Complex.log (m.characteristic (-Complex.I))
  m.characteristic u * Complex.exp (-Complex.I * u * convexity)

/-- Embedding of Marginal1D.call_option_transform (marginal.py lines 122
to 125): uj = 1j * u; characteristic_corrected(u - 1j) / (uj * uj + uj). -/
def call_option_transform (m : Marginal1D) (u : ℂ) : ℂ :=
  let uj := Complex.I * u
  m.characteristic_corrected (u - Complex.I) / (uj * uj + uj)

/-- Embedding of Marginal1D.call_option (marginal.py lines 102 to 120),
with the Transform instance passed in explicitly (its construction lives
in the missing transforms.py): evaluate the call option transform at the
damped frequencies u - 1j * alpha, invert, and multiply the resulting
values pointwise by exp(-alpha * x). -/
def call_option (m : Marginal1D) (tr : TransformEngine)
    (delta_x : Option ℝ) (alpha : ℝ) : TransformResult :=
  let phi := tr.frequency_domain.map
    (fun u => m.call_option_transform (Complex.ofReal u - Complex.I * Complex.ofReal alpha))
  let result := tr.invert phi delta_x
  ⟨result.x, List.zipWith (fun y x => y * Real.exp (-alpha * x)) result.y result.x⟩

/-- Embedding of the base Marginal1D.cdf (marginal.py lines 134 to 141):
it unconditionally raises NotImplementedError. -/
def cdf (m : Marginal1D) (n : ℝ) : Except String ℝ :=
  Except.error "Analytical CFD not available"

/-- Embedding of the base Marginal1D.cdf_jacobian (marginal.py lines 152
to 159): it unconditionally raises NotImplementedError. -/
def cdf_jacobian (m : Marginal1D) (n : ℝ) : Except String (List ℝ) :=
  Except.error "Analytical CFD Jacobian not available"

/-- Model of numpy.min on a list of reals (the minimum of a nonempty
list; the empty case, an error in numpy, is mapped to 0). -/
def npMin (xs : List ℝ) : ℝ := xs.foldl min (xs.headD 0)

/-- Model of numpy.max on a list of reals (the maximum of a nonempty
list; the empty case, an error in numpy, is mapped to 0). -/
def npMax (xs : List ℝ) : ℝ := xs.foldl max (xs.headD 0)

/-- Embedding of the argument dispatch of
Marginal1D.pdf_from_characteristic (marginal.py lines 86 to 100): n_or_x
is either absent, an integer sample count, or an array of target
x-coordinates; the function returns the pair (n, delta_x) that is passed
on to the Transform constructor and to the transform call.  An integer
n_or_x becomes n; an array n_or_x with delta_x absent infers delta_x as
(max - min) / (length - 1); in every other case delta_x is passed through
unchanged and n stays absent. -/
def pdf_from_characteristic_args (n_or_x : Option (ℤ ⊕ List ℝ))
    (delta_x : Option ℝ) : Option ℤ × Option ℝ :=
  match n_or_x, delta_x with
  | some (Sum.inl k), dx => (some k, dx)
  | some (Sum.inr xs), none =>
      (none, some ((npMax xs - npMin xs) / ((xs.length : ℝ) - 1)))
  | some (Sum.inr _), some dx => (none, some dx)
  | none, dx => (none, dx)

end Marginal1D

namespace SkellamProcess

/-- Embedding of SkellamProcess.sample (poisson.py lines 155 to 156): it
unconditionally raises NotImplementedError. -/
def sample (rate_left rate_right : ℝ) (n : ℕ) (t : ℝ) (steps : ℕ) :
    Except String (List (List ℝ)) :=
  Except.error "NotImplementedError"

end SkellamProcess

namespace DoubleIndependentPoisson

/-- Embedding of DoubleIndependentPoisson.sample (poisson.py lines 219 to
221): it unconditionally raises NotImplementedError. -/
def sample (rate_left rate_right : ℝ) (n : ℕ) (t : ℝ) (steps : ℕ) :
    Except String (List (List ℝ)) :=
  Except.error "NotImplementedError"

end DoubleIndependentPoisson

/-! ### Paths container (quantflow/utils/paths.py) and path sampling. -/

/-- Embedding of the Paths model of paths.py: a time horizon t and a data
buffer given as a list of rows, row k holding the value of every sample
path at grid index k. -/
structure Paths where
  t : ℝ
  data : List (List ℝ)

namespace Paths

/-- Embedding of Paths.steps (paths.py lines 29 to 31): the number of rows
of the data buffer minus one. -/
def steps (p : Paths) : ℕ := p.data.length - 1

/-- Embedding of Paths.dt (paths.py lines 21 to 23): t / steps. -/
def dt (p : Paths) : ℝ := p.t / p.steps

/-- Modelled from the spec: Paths.normal_draws, called by
WeinerProcess.sample (weiner.py line 23), is missing from paths.py under
src.  Per specification section 4.4 it draws standard-normal increments on
a grid of time_steps intervals over the interval from 0 to time_horizon,
returning a Paths with t = time_horizon whose data has time_steps + 1 rows
of n columns.  The normal draws themselves are injected through the rows
argument; the shape contract is stated as a hypothesis where a theorem
needs it. -/
def normal_draws (n : ℕ) (time_horizon : ℝ) (time_steps : ℕ)
    (rows : List (List ℝ)) : Paths :=
  ⟨time_horizon, rows⟩

end Paths

namespace WeinerProcess

/-- Elementwise sum of two rows (numpy addition of two row vectors). -/
def addRow (a b : List ℝ) : List ℝ := List.zipWith (· + ·) a b

/-- Helper of cumsumRows: emit the running row sum, starting from acc. -/
def cumsumRowsGo (acc : List ℝ) : List (List ℝ) → List (List ℝ)
  | [] => [acc]
  | s :: ss => acc :: cumsumRowsGo (addRow acc s) ss

/-- Cumulative sum of a list of rows along axis 0 (numpy.cumsum with
axis=0): row k of the result is the elementwise sum of input rows 0 to
k. -/
def cumsumRows : List (List ℝ) → List (List ℝ)
  | [] => []
  | r :: rest => cumsumRowsGo r rest

/-- Embedding of WeinerProcess.sample_from_draws (weiner.py lines 26 to
30).  The expression statement on line 27 computes sigma * sqrt(draws.dt)
and discards the result without assigning or using it; the returned paths
are therefore the unscaled cumulative sums: the output has the shape of
draws.data, row 0 is the zero row, rows 1 onward are the cumulative sums
of draws.data without its last row, and the time horizon is that of the
draws. -/
def sample_from_draws (sigma : ℝ) (draws : Paths) : Paths :=
  let _discarded := sigma * Real.sqrt draws.dt
  match draws.data with
  | [] => ⟨draws.t, []⟩
  | r :: rest => ⟨draws.t, (r.map fun _ => (0 : ℝ)) :: cumsumRows (r :: rest).dropLast⟩

/-- Embedding of WeinerProcess.sample (weiner.py lines 22 to 24):
sample_from_draws applied to Paths.normal_draws(n, time_horizon,
time_steps), with the normal draws injected through the rows argument. -/
def sample (sigma : ℝ) (n : ℕ) (time_horizon : ℝ) (time_steps : ℕ)
    (rows : List (List ℝ)) : Paths :=
  sample_from_draws sigma (Paths.normal_draws n time_horizon time_steps rows)

end WeinerProcess

namespace PoissonProcess

/-- Embedding of the loop of PoissonProcess.arrivals (poisson.py lines 98
to 107) with the standard exponential draws injected through gaps:
starting from the current time tt, while tt <= t append tt to the list and
advance tt by the next draw scaled by exp_rate = 1 / rate.  The injected
stream is finite, so the loop also stops when the stream is exhausted. -/
def arrivalsAux (rate t : ℝ) (tt : ℝ) (gaps : List ℝ) : List ℝ :=
  if tt ≤ t then
    tt :: (match gaps with
      | [] => []
      | g :: gs => arrivalsAux rate t (tt + g * (1 / rate)) gs)
  else []

/-- Embedding of PoissonProcess.arrivals (poisson.py lines 98 to 107):
the arrival loop started at tt = 0. -/
def arrivals (rate : ℝ) (gaps : List ℝ) (t : ℝ) : List ℝ :=
  arrivalsAux rate t 0 gaps

/-- Embedding of PoissonProcess.jumps (poisson.py lines 109 to 110): a
vector of n unit jumps. -/
def jumps (n : ℕ) : List ℝ := List.replicate n (1 : ℝ)

/-- Modelled from the spec: StochasticProcess.sample_dt of
quantflow/sp/base.py is missing from src.  Per specification section 4.3
the sample method evaluates each path on a uniform time grid of steps
intervals over the horizon t, so sample_dt returns the pair
(steps, t / steps). -/
def sample_dt (t : ℝ) (steps : ℕ) : ℕ × ℝ :=
  (steps, t / steps)

/-- Embedding of the filling loop of PoissonProcess.sample (poisson.py
lines 87 to 95), producing the rows of one column from grid index i
upward; fuel is the number of rows still to emit (size + 1 - i).  For each
pair of an arrival time and a jump, rows with i * dt < arrival receive the
running count y and then y increases by the jump; once the arrivals are
exhausted, every remaining row receives y. -/
def fillFrom (dt : ℝ) (fuel i : ℕ) (y : ℝ) (arr : List (ℝ × ℝ)) : List ℝ :=
  match fuel, arr with
  | 0, _ => []
  | f + 1, [] => List.replicate (f + 1) y
  | f + 1, (a, jump) :: rest =>
      if (i : ℝ) * dt < a then
        y :: fillFrom dt f (i + 1) y ((a, jump) :: rest)
      else fillFrom dt (f + 1) i (y + jump) rest
termination_by (fuel, arr.length)

/-- Embedding of the per-path body of PoissonProcess.sample (poisson.py
lines 84 to 95): one column of the output matrix, of length size + 1.  Row
0 is never written and stays 0; if there are no arrivals the whole column
stays 0; otherwise rows 1 to size come from the filling loop with i
starting at 1, y starting at 0 and unit jumps. -/
def sampleColumn (rate t dt : ℝ) (size : ℕ) (gaps : List ℝ) : List ℝ :=
  let arr := arrivals rate gaps t
  if arr.isEmpty then List.replicate (size + 1) 0
  else 0 :: fillFrom dt size 1 0 (arr.zip (jumps arr.length))

/-- Embedding of PoissonProcess.sample (poisson.py lines 81 to 96), with
one injected stream of exponential draws per requested path: the result is
the matrix of n columns (one per path), each of size + 1 rows, where
(size, dt) = sample_dt(t, steps).  The Python method returns this bare
numpy array, not a Paths object. -/
def sample (rate : ℝ) (n : ℕ) (t : ℝ) (steps : ℕ)
    (gapStreams : List (List ℝ)) : List (List ℝ) :=
  let sd := sample_dt t steps
  (List.range n).map (fun p => sampleColumn rate t sd.2 sd.1 (gapStreams.getD p []))

end PoissonProcess

/-- Dynamic return value of the sample methods.  Python is dynamically
typed: WeinerProcess.sample returns a Paths object while
PoissonProcess.sample returns a bare numpy array of path values. -/
inductive SampleResult where
  | paths (p : Paths)
  | array (a : List (List ℝ))

/-- Reading the time-horizon attribute t off a sample result: a Paths
object carries t, a bare numpy array does not. -/
def SampleResult.timeHorizon : SampleResult → Option ℝ
  | .paths p => some p.t
  | .array _ => none

/-- Return value of PoissonProcess.sample (poisson.py lines 81 to 96) as
a dynamic value: a bare numpy array. -/
def PoissonProcess.sampleDyn (rate : ℝ) (n : ℕ) (t : ℝ) (steps : ℕ)
    (gapStreams : List (List ℝ)) : SampleResult :=
  SampleResult.array (PoissonProcess.sample rate n t steps gapStreams)

/-- Return value of WeinerProcess.sample (weiner.py lines 22 to 24) as a
dynamic value: a Paths object. -/
def WeinerProcess.sampleDyn (sigma : ℝ) (n : ℕ) (time_horizon : ℝ)
    (time_steps : ℕ) (rows : List (List ℝ)) : SampleResult :=
  SampleResult.paths (WeinerProcess.sample sigma n time_horizon time_steps rows)

end Quantflow

open Quantflow

/-- C5: for every PoissonProcess with rate lambda > 0 and every
WeinerProcess with sigma >= 0, and every time horizon t >= 0, the
characteristic function evaluated at frequency u = 0 equals 1 exactly. -/
theorem characteristic_at_zero_eq_one (lam sigma t : ℝ)
    (hlam : 0 < lam) (hsigma : 0 ≤ sigma) (ht : 0 ≤ t) :
    PoissonProcess.characteristic lam t 0 = 1 ∧
      WeinerProcess.characteristic sigma t 0 = 1 := by
  constructor
  · simp [PoissonProcess.characteristic, PoissonProcess.characteristic_exponent]
  · simp [WeinerProcess.characteristic]

/-- Witness for C5: the normalization theorem applied at lambda = 1,
sigma = 1, t = 1. -/
theorem characteristic_at_zero_eq_one_witness :
    PoissonProcess.characteristic 1 1 0 = 1 ∧
      WeinerProcess.characteristic 1 1 0 = 1 :=
  characteristic_at_zero_eq_one 1 1 1 (by norm_num) (by norm_num) (by norm_num)

/-- C7: for every PoissonProcess with rate lambda > 0, every t >= 0 and
every integer n >= 0, cdf(t, n) - cdf(t, n - 1) equals pdf(t, n) exactly
in real arithmetic. -/
theorem poisson_cdf_diff_eq_pdf (rate t : ℝ) (n : ℤ)
    (hrate : 0 < rate) (ht : 0 ≤ t) (hn : 0 ≤ n) :
    PoissonProcess.cdf rate t n - PoissonProcess.cdf rate t (n - 1)
      = PoissonProcess.pdf rate t n := by
  unfold PoissonProcess.cdf PoissonProcess.pdf scipy_poisson_cdf scipy_poisson_pmf
  obtain ⟨m, rfl⟩ := Int.eq_ofNat_of_zero_le hn
  cases m with
  | zero => norm_num
  | succ k =>
      have hc1 : ¬(((k + 1 : ℕ) : ℤ) < 0) := by omega
      have hc2 : ¬(((k + 1 : ℕ) : ℤ) - 1 < 0) := by omega
      rw [if_neg hc1, if_neg hc2, if_neg hc1]
      have ht1 : ((k + 1 : ℕ) : ℤ).toNat = k + 1 := by omega
      have ht2 : (((k + 1 : ℕ) : ℤ) - 1).toNat = k := by omega
      rw [ht1, ht2, Finset.sum_range_succ]
      ring

/-- Witness for C7: the pmf round-trip theorem applied at rate = 1, t = 1,
n = 0. -/
theorem poisson_cdf_diff_eq_pdf_witness :
    (0 : ℝ) < 1 ∧ (0 : ℝ) ≤ 1 ∧ (0 : ℤ) ≤ 0 ∧
      (PoissonProcess.cdf 1 1 0 - PoissonProcess.cdf 1 1 (0 - 1)
        = PoissonProcess.pdf 1 1 0) :=
  ⟨by norm_num, by norm_num, by decide,
    poisson_cdf_diff_eq_pdf 1 1 0 (by norm_num) (by norm_num) (by decide)⟩

/-- C8: for every DoubleIndependentPoisson with rates lambda1 and lambda2,
every t and every pair of integers (n1, n2), the pdf factorizes as the
product of the two marginal Poisson pdfs and the cdf factorizes as the
product of the two marginal Poisson cdfs. -/
theorem double_poisson_factorization (rate_left rate_right t : ℝ) (n1 n2 : ℤ) :
    DoubleIndependentPoisson.pdf rate_left rate_right t (n1, n2)
        = PoissonProcess.pdf rate_left t n1 * PoissonProcess.pdf rate_right t n2
    ∧ DoubleIndependentPoisson.cdf rate_left rate_right t (n1, n2)
        = PoissonProcess.cdf rate_left t n1 * PoissonProcess.cdf rate_right t n2 :=
  ⟨rfl, rfl⟩

/-- C3: for every Marginal1D with characteristic function phi,
call_option_transform(u) equals phi_corrected(u - i) / ((i u)^2 + i u)
where phi_corrected(u) = phi(u) * exp(-i u log(phi(-i))); and call_option
evaluates this transform at the damped argument u - i alpha and, after
inversion, multiplies the real output pointwise by exp(-alpha x). -/
theorem call_option_transform_spec :
    (∀ (m : Marginal1D) (u : ℂ),
        m.call_option_transform u
          = m.characteristic (u - Complex.I)
              * Complex.exp (-Complex.I * (u - Complex.I)
                  * Complex.log (m.characteristic (-Complex.I)))
              / ((Complex.I * u) ^ 2 + Complex.I * u))
  ∧ (∀ (m : Marginal1D) (tr : TransformEngine) (dx : Option ℝ) (alpha : ℝ),
        m.call_option tr dx alpha
          = { x := (tr.invert (tr.frequency_domain.map
                (fun u => m.call_option_transform
                  (Complex.ofReal u - Complex.I * Complex.ofReal alpha))) dx).x,
              y := List.zipWith (fun y x => y * Real.exp (-alpha * x))
                (tr.invert (tr.frequency_domain.map
                  (fun u => m.call_option_transform
                    (Complex.ofReal u - Complex.I * Complex.ofReal alpha))) dx).y
                (tr.invert (tr.frequency_domain.map
                  (fun u => m.call_option_transform
                    (Complex.ofReal u - Complex.I * Complex.ofReal alpha))) dx).x }) := by
  constructor
  · intro m u
    show m.characteristic_corrected (u - Complex.I)
        / (Complex.I * u * (Complex.I * u) + Complex.I * u) = _
    rw [Marginal1D.characteristic_corrected]
    rw [show (Complex.I * u) ^ 2 = Complex.I * u * (Complex.I * u) from by ring]
  · intro m tr dx alpha
    rfl

/-- C4: for every Marginal1D whose characteristic function phi satisfies
the conjugate symmetry phi(-d) = conj(phi(d)) of a real distribution (the
theorem uses it only at the step d = 0.001), the default mean returns the
real part of -i (phi(d) - phi(-d)) / (2 d) with d = 0.001, and the default
variance returns the real part of -(phi(d) - 2 phi(0) + phi(-d)) / d^2
minus the square of that mean. -/
theorem mean_variance_from_characteristic (m : Marginal1D)
    (h : m.characteristic (-(Complex.ofReal 0.001))
        = (starRingEnd ℂ) (m.characteristic (Complex.ofReal 0.001))) :
    m.mean_from_characteristic
      = (-Complex.I * (m.characteristic (Complex.ofReal 0.001)
            - m.characteristic (-(Complex.ofReal 0.001)))
          / (2 * Complex.ofReal 0.001)).re
  ∧ m.variance_from_characteristic
      = (-(m.characteristic (Complex.ofReal 0.001) - 2 * m.characteristic 0
            + m.characteristic (-(Complex.ofReal 0.001)))
          / (Complex.ofReal 0.001 ^ 2)).re
        - m.mean_from_characteristic ^ 2 := by
  set c1 := m.characteristic (Complex.ofReal 0.001) with hc1def
  set c2 := m.characteristic (-(Complex.ofReal 0.001)) with hc2def
  set c0 := m.characteristic 0 with hc0def
  have hmean : m.mean_from_characteristic
      = (-0.5 * Complex.I * (c1 - c2) / (Complex.ofReal 0.001)).re := rfl
  have heq : (-0.5 * Complex.I * (c1 - c2) / (Complex.ofReal 0.001) : ℂ)
      = -Complex.I * (c1 - c2) / (2 * Complex.ofReal 0.001) := by
    have h05 : (-0.5 : ℂ) = -(1 / 2) := by norm_num
    rw [h05]
    ring
  constructor
  · rw [hmean, heq]
  · have hmv : (-0.5 * Complex.I * (c1 - c2) / (Complex.ofReal 0.001) : ℂ)
        = Complex.ofReal (c1.im / 0.001) := by
      rw [h, Complex.sub_conj]
      rw [show (-0.5 : ℂ) * Complex.I
            * (Complex.ofReal (2 * c1.im) * Complex.I) / (Complex.ofReal 0.001)
          = -0.5 * (Complex.I * Complex.I)
            * Complex.ofReal (2 * c1.im) / (Complex.ofReal 0.001) from by ring]
      rw [Complex.I_mul_I]
      push_cast
      have h05 : (-0.5 : ℂ) = -(1 / 2) := by norm_num
      rw [h05]
      ring
    have hvar : m.variance_from_characteristic
        = (-(c1 - 2 * c0 + c2) / (Complex.ofReal 0.001 * Complex.ofReal 0.001)
            - (-0.5 * Complex.I * (c1 - c2) / (Complex.ofReal 0.001))
              * (-0.5 * Complex.I * (c1 - c2) / (Complex.ofReal 0.001))).re := rfl
    rw [hvar, hmv]
    rw [hmean, hmv]
    simp only [Complex.sub_re, Complex.ofReal_mul, Complex.ofReal_re]
    rw [show ((Complex.ofReal (c1.im / 0.001)) * (Complex.ofReal (c1.im / 0.001)) : ℂ)
        = Complex.ofReal ((c1.im / 0.001) * (c1.im / 0.001)) from by push_cast; ring]
    rw [show (Complex.ofReal 0.001 * Complex.ofReal 0.001 : ℂ)
        = Complex.ofReal 0.001 ^ 2 from by ring]
    simp [Complex.ofReal_re]
    ring

/-- C9: SkellamProcess.sample and DoubleIndependentPoisson.sample raise a
not-implemented error for every argument and never return a value, and the
base Marginal1D.cdf and Marginal1D.cdf_jacobian likewise always raise a
not-implemented error; none of them returns a default value. -/
theorem not_implemented_guards :
    (∀ (rl rr : ℝ) (n : ℕ) (t : ℝ) (steps : ℕ),
        SkellamProcess.sample rl rr n t steps = Except.error "NotImplementedError")
  ∧ (∀ (rl rr : ℝ) (n : ℕ) (t : ℝ) (steps : ℕ),
        DoubleIndependentPoisson.sample rl rr n t steps
          = Except.error "NotImplementedError")
  ∧ (∀ (m : Marginal1D) (n : ℝ),
        m.cdf n = Except.error "Analytical CFD not available")
  ∧ (∀ (m : Marginal1D) (n : ℝ),
        m.cdf_jacobian n = Except.error "Analytical CFD Jacobian not available") :=
  ⟨fun _ _ _ _ _ => rfl, fun _ _ _ _ _ => rfl, fun _ _ => rfl, fun _ _ => rfl⟩

/-- C10: in the argument dispatch of Marginal1D.pdf_from_characteristic an
explicitly supplied delta_x always takes precedence: with an array n_or_x
and a given delta_x the given delta_x is passed to the transform; the
spacing (max - min) / (length - 1) is inferred only when n_or_x is an
array and delta_x is absent; and an integer n_or_x is always treated as a
sample count, never as coordinates. -/
theorem pdf_from_characteristic_arg_dispatch :
    (∀ (xs : List ℝ) (d : ℝ),
        Marginal1D.pdf_from_characteristic_args (some (Sum.inr xs)) (some d)
          = (none, some d))
  ∧ (∀ xs : List ℝ,
        Marginal1D.pdf_from_characteristic_args (some (Sum.inr xs)) none
          = (none, some ((Marginal1D.npMax xs - Marginal1D.npMin xs)
              / ((xs.length : ℝ) - 1))))
  ∧ (∀ (k : ℤ) (dx : Option ℝ),
        Marginal1D.pdf_from_characteristic_args (some (Sum.inl k)) dx
          = (some k, dx)) :=
  ⟨fun _ _ => rfl, fun _ => rfl, fun _ _ => rfl⟩

/-- C1 (code bug): WeinerProcess.sample_from_draws does not scale the
accumulated draws.  On the draws Paths with t = 1 and data [[1], [5]]
(dt = 1) and sigma = 2, the code returns path value 1 at grid index 1,
while the claimed value sigma * sqrt(dt) times the first draw is 2: the
scale factor computed on weiner.py line 27 is discarded. -/
theorem weiner_sample_from_draws_unscaled :
    (WeinerProcess.sample_from_draws 2 ⟨1, [[1], [5]]⟩).data = [[0], [1]]
    ∧ 2 * Real.sqrt (Paths.dt ⟨1, [[1], [5]]⟩) * 1 = 2
    ∧ (1 : ℝ) ≠ 2 := by
  refine ⟨rfl, ?_, by norm_num⟩
  have hdt : Paths.dt ⟨1, [[1], [5]]⟩ = 1 := by
    simp [Paths.dt, Paths.steps]
  rw [hdt, Real.sqrt_one]
  norm_num

/-- C2 (code bug): PoissonProcess.arrivals always includes time 0 as its
first arrival.  With rate 1, horizon t = 1 and a single injected
exponential draw of 2, the code returns the arrival list [0]: the value 0
is not the cumulative sum of one or more positive exponential draws (any
such sum here equals 2). -/
theorem poisson_arrivals_include_time_zero :
    PoissonProcess.arrivals 1 [2] 1 = [0] ∧ (0 : ℝ) ≠ 2 := by
  constructor
  · unfold PoissonProcess.arrivals
    rw [PoissonProcess.arrivalsAux]
    norm_num [PoissonProcess.arrivalsAux]
  · norm_num

/-- Helper: cumsumRowsGo emits one row per input row plus the seed row. -/
lemma cumsumRowsGo_length (acc : List ℝ) (l : List (List ℝ)) :
    (WeinerProcess.cumsumRowsGo acc l).length = l.length + 1 := by
  induction l generalizing acc with
  | nil => rfl
  | cons s ss ih => simp [WeinerProcess.cumsumRowsGo, ih]

/-- Helper: cumsumRows preserves the number of rows. -/
lemma cumsumRows_length (l : List (List ℝ)) :
    (WeinerProcess.cumsumRows l).length = l.length := by
  cases l with
  | nil => rfl
  | cons r rest => simp [WeinerProcess.cumsumRows, cumsumRowsGo_length]

/-- Helper: sample_from_draws keeps the time horizon of the draws. -/
lemma sample_from_draws_t (sigma : ℝ) (d : Paths) :
    (WeinerProcess.sample_from_draws sigma d).t = d.t := by
  rcases d with ⟨t, data⟩
  cases data <;> rfl

/-- Helper: sample_from_draws keeps the number of rows of the draws. -/
lemma sample_from_draws_length (sigma t : ℝ) (r : List ℝ) (rest : List (List ℝ)) :
    (WeinerProcess.sample_from_draws sigma ⟨t, r :: rest⟩).data.length
      = (r :: rest).length := by
  simp [WeinerProcess.sample_from_draws, cumsumRows_length, List.length_dropLast]

/-- Helper: the filling loop emits exactly fuel rows. -/
lemma fillFrom_length (dt : ℝ) :
    ∀ (fuel : ℕ) (arr : List (ℝ × ℝ)) (i : ℕ) (y : ℝ),
      (PoissonProcess.fillFrom dt fuel i y arr).length = fuel := by
  intro fuel
  induction fuel with
  | zero =>
      intro arr i y
      simp [PoissonProcess.fillFrom]
  | succ f ihf =>
      intro arr
      induction arr with
      | nil =>
          intro i y
          simp [PoissonProcess.fillFrom]
      | cons hd tl ihArr =>
          intro i y
          obtain ⟨a, jump⟩ := hd
          rw [PoissonProcess.fillFrom]
          by_cases hc : (i : ℝ) * dt < a
          · rw [if_pos hc]
            simp [ihf]
          · rw [if_neg hc]
            exact ihArr i (y + jump)

/-- Helper: every sampled Poisson column has size + 1 rows. -/
lemma sampleColumn_length (rate t dt : ℝ) (size : ℕ) (gaps : List ℝ) :
    (PoissonProcess.sampleColumn rate t dt size gaps).length = size + 1 := by
  unfold PoissonProcess.sampleColumn
  by_cases h : (PoissonProcess.arrivals rate gaps t).isEmpty
  · simp [h]
  · simp [h, fillFrom_length]

/-- C6 counterexample: PoissonProcess.sample(n=10, t=1, steps=100) does
not yield a Paths object: the returned value is a bare numpy array with no
time-horizon attribute, so reading t off it does not give 1. -/
theorem poisson_sample_returns_bare_array :
    (PoissonProcess.sampleDyn 1 10 1 100 (List.replicate 10 [2])).timeHorizon
      ≠ some 1 := by
  simp [PoissonProcess.sampleDyn, SampleResult.timeHorizon]

/-- C6 (amended): WeinerProcess.sample(n=10, t=1, steps=100) yields a
Paths whose time horizon is 1 and whose derived spacing dt is 0.01, the
draws having the 101 rows that normal_draws produces for 100 steps;
PoissonProcess.sample(n=10, t=1, steps=100) instead returns a bare array,
with no time-horizon field, whose every column has 101 rows (so the grid
spacing t divided by rows minus one is 0.01 there as well). -/
theorem sample_grid_consistency (sigma rate : ℝ) (rows gapStreams : List (List ℝ))
    (hrows : rows.length = 101) :
    (WeinerProcess.sample sigma 10 1 100 rows).t = 1
    ∧ Paths.dt (WeinerProcess.sample sigma 10 1 100 rows) = 0.01
    ∧ (PoissonProcess.sampleDyn rate 10 1 100 gapStreams).timeHorizon = none
    ∧ ∀ col ∈ PoissonProcess.sample rate 10 1 100 gapStreams, col.length = 101 := by
  have ht : (WeinerProcess.sample sigma 10 1 100 rows).t = 1 := by
    unfold WeinerProcess.sample Paths.normal_draws
    exact sample_from_draws_t sigma ⟨1, rows⟩
  have hlen : (WeinerProcess.sample sigma 10 1 100 rows).data.length = 101 := by
    unfold WeinerProcess.sample Paths.normal_draws
    cases rows with
    | nil => simp at hrows
    | cons r rest =>
        rw [sample_from_draws_length]
        exact hrows
  refine ⟨ht, ?_, rfl, ?_⟩
  · unfold Paths.dt Paths.steps
    rw [ht, hlen]
    norm_num
  · intro col hcol
    unfold PoissonProcess.sample at hcol
    simp only [List.mem_map, List.mem_range] at hcol
    obtain ⟨p, hp, hcoleq⟩ := hcol
    rw [← hcoleq]
    exact sampleColumn_length rate 1 _ _ _

/-- Witness for C6: the amended theorem applied with sigma = 1, rate = 1,
101 injected zero normal-draw rows and 10 injected exponential streams. -/
theorem sample_grid_consistency_witness :
    (List.replicate 101 ([0] : List ℝ)).length = 101
    ∧ ((WeinerProcess.sample 1 10 1 100 (List.replicate 101 [0])).t = 1
      ∧ Paths.dt (WeinerProcess.sample 1 10 1 100 (List.replicate 101 [0])) = 0.01
      ∧ (PoissonProcess.sampleDyn 1 10 1 100 (List.replicate 10 [2])).timeHorizon = none
      ∧ ∀ col ∈ PoissonProcess.sample 1 10 1 100 (List.replicate 10 [2]),
          col.length = 101) :=
  ⟨by simp,
    sample_grid_consistency 1 1 (List.replicate 101 [0]) (List.replicate 10 [2])
      (by simp)⟩

/-- Witness for C4: the mean and variance theorem applied to the marginal
whose characteristic function is constantly 1 (the unit mass at zero),
which satisfies the conjugate symmetry hypothesis. -/
theorem mean_variance_from_characteristic_witness :
    ((Marginal1D.mk fun _ => 1).characteristic (-(Complex.ofReal 0.001))
        = (starRingEnd ℂ) ((Marginal1D.mk fun _ => 1).characteristic (Complex.ofReal 0.001)))
    ∧ ((Marginal1D.mk fun _ => 1).mean_from_characteristic
        = (-Complex.I * ((Marginal1D.mk fun _ => 1).characteristic (Complex.ofReal 0.001)
              - (Marginal1D.mk fun _ => 1).characteristic (-(Complex.ofReal 0.001)))
            / (2 * Complex.ofReal 0.001)).re
      ∧ (Marginal1D.mk fun _ => 1).variance_from_characteristic
          = (-((Marginal1D.mk fun _ => 1).characteristic (Complex.ofReal 0.001)
                - 2 * (Marginal1D.mk fun _ => 1).characteristic 0
                + (Marginal1D.mk fun _ => 1).characteristic (-(Complex.ofReal 0.001)))
              / (Complex.ofReal 0.001 ^ 2)).re
            - (Marginal1D.mk fun _ => 1).mean_from_characteristic ^ 2) :=
  ⟨by simp, mean_variance_from_characteristic (Marginal1D.mk fun _ => 1) (by simp)⟩
